import Mathlib

/-
Verification of the mwoffliner scrape pipeline specification against the
source. The definitions below are shallow embeddings of the functions in
src/src/util/saveArticles.ts, src/src/util/articleRenderers.ts,
src/unnamed/part_001 (util/misc.ts) and src/unnamed/part_002 (Downloader.ts).
JavaScript numbers are modelled as Nat / Rat with absent (undefined) values
as Option none; JS comparisons against undefined are false, which the
jsLt helpers reproduce.
-/

set_option autoImplicit false

namespace MwOffliner

/-! ## Downloader rate adaptation (claim C3)

Embeds the mutations of Downloader.maxActiveRequests in part_002:
initialised to speed * 10 in the constructor (line 93), and set to
Math.max(Math.ceil(this.maxActiveRequests * 0.9), 1) when an HTTP 429
response is observed, both in getJSONCb (lines 568-572) and in
errHandler (lines 645-649). No other statement assigns the field.
In Nat, Math.ceil (0.9 * m) is (9 * m + 9) / 10. -/

/-- An event observed by the Downloader that can touch maxActiveRequests:
either an HTTP 429 response or anything else. -/
inductive DlEvent where
  | recv429
  | other
  deriving DecidableEq, Repr

/-- One transition of maxActiveRequests (part_002 lines 568-572 and 645-649):
on a 429 it becomes Math.max(Math.ceil(0.9 * m), 1); otherwise unchanged. -/
def maxActiveStep (m : Nat) : DlEvent → Nat
  | .recv429 => Nat.max ((9 * m + 9) / 10) 1
  | .other => m

/-- maxActiveRequests after a run: starts at speed * 10 (part_002 line 93)
and folds the observed events. -/
def maxActiveRun (speed : Nat) (evs : List DlEvent) : Nat :=
  evs.foldl maxActiveStep (speed * 10)

/-! ## Category pagination (claim C4)

Embeds the shard loop of renderArticle in articleRenderers.ts lines 36-57:
numberOfPagesToSplitInto = Math.max(Math.ceil(N / 200), 1); shard 0 keeps
the article id, shard i is suffixed __i; nextArticleId is set when
numberOfPagesToSplitInto > i + 1; prevArticleId is __(i-1) when i-1 > 0,
the bare article id when i-1 = 0, and null otherwise. -/

structure Shard where
  articleId : String
  prevArticleId : Option String
  nextArticleId : Option String
  subCategories : List String
  deriving DecidableEq, Repr

/-- The id of shard i: shard 0 keeps the original id, shard i gets __i
(articleRenderers.ts line 39). -/
def shardIdOf (articleId : String) (i : Nat) : String :=
  if i = 0 then articleId else articleId ++ "__" ++ toString i

/-- numberOfPagesToSplitInto (articleRenderers.ts line 37). -/
def numberOfPagesToSplitInto (n : Nat) : Nat :=
  Nat.max ((n + 199) / 200) 1

/-- The shard records built by the pagination loop of renderArticle
(articleRenderers.ts lines 38-57), for a category with the given
subCategories list. -/
def renderShards (articleId : String) (subCats : List String) : List Shard :=
  (List.range (numberOfPagesToSplitInto subCats.length)).map (fun i =>
    { articleId := shardIdOf articleId i
      nextArticleId :=
        if i + 1 < numberOfPagesToSplitInto subCats.length then
          some (articleId ++ "__" ++ toString (i + 1))
        else none
      prevArticleId :=
        if i = 0 then none
        else if i - 1 = 0 then some articleId
        else some (articleId ++ "__" ++ toString (i - 1))
      subCategories := (subCats.drop (i * 200)).take 200 })

/-- The shards that are written back to the articleDetail store: the loop
stores every shard exactly when subCategories.length > 200
(articleRenderers.ts lines 55-57). -/
def storedShards (articleId : String) (subCats : List String) : List Shard :=
  if 200 < subCats.length then renderShards articleId subCats else []

/-! ## Per-article media URL deduplication (claim C10)

Embeds the srcCache discipline of treatMedias (saveArticles.ts lines
437-463): one srcCache table per article is threaded first through every
treatVideo call and then through every treatImage call; each of the three
push sites (saveArticles.ts lines 276-279 and 300-303 for treatVideo,
lines 357-360 for treatImage) pushes a URL only after checking
srcCache.hasOwnProperty(url) and recording the URL in the cache. The
candidate URLs of one article are taken in program order. -/

/-- One guarded push: if the URL is already in the cache it is dropped,
otherwise it is recorded and emitted. -/
def pushIfNew (st : List String × List String) (u : String) :
    List String × List String :=
  if u ∈ st.1 then st else (u :: st.1, st.2 ++ [u])

/-- The media-dependency list emitted for one article, given the candidate
URLs that the video pass and the image pass consider, in order. -/
def treatMediasDeps (candidates : List String) : List String :=
  (candidates.foldl pushIfNew ([], [])).2

/-! ## Downloader retry plumbing (claim C2)

Embeds the backoff configuration (part_002 lines 106-114), the error
dispatch of getJSONCb (lines 562-582), of getContentCb / errHandler
(lines 588-607 and 644-653), and backoffCall (lines 666-673). -/

/-- A JavaScript error as the Downloader sees it: err.code (for example
ECONNABORTED on a client-side timeout) and err.response?.status. -/
structure JsError where
  code : Option String
  responseStatus : Option Nat
  deriving DecidableEq, Repr

/-- backoffOptions.failAfter (part_002 line 108). -/
def failAfterVal : Nat := 7

/-- backoffOptions.retryIf (part_002 line 109):
err.code === ECONNABORTED or err.response?.status !== 404. An error
without a response has undefined status, and undefined !== 404 holds. -/
def retryIf (e : JsError) : Bool :=
  e.code == some "ECONNABORTED" || !(e.responseStatus == some 404)

/-- What a request callback does with a failed attempt. -/
inductive CbAction where
  | forwardError
  | internalRetry429
  | swallowed
  deriving DecidableEq, Repr

/-- The error dispatch of getJSONCb (part_002 lines 566-581): a 429
triggers an immediate internal re-call of getJSONCb (line 573) without
going through backoff; a 404 is passed to the backoff handler (line 575);
every other error matches neither branch of the if/else-if, raises
nothing, and is silently dropped. -/
def getJSONCbOnError (e : JsError) : CbAction :=
  if e.responseStatus == some 429 then .internalRetry429
  else if e.responseStatus == some 404 then .forwardError
  else .swallowed

/-- The error dispatch of getContentCb (part_002 lines 600-606): every
error goes through errHandler, which always calls handler(err)
(line 652), so every error reaches the backoff layer. -/
def getContentCbOnError (_e : JsError) : CbAction := .forwardError

/-- A run of one backoff.call (part_002 lines 666-673) whose attempt k
fails with script k = some e (none is success). Returns the number of
attempts performed: a failed attempt is retried while retryIf accepts the
error and fewer than failAfter retries have been spent. -/
def backoffAttemptsFrom (script : Nat → Option JsError) :
    Nat → Nat → Nat
  | i, fuel =>
    match script i, fuel with
    | none, _ => i + 1
    | some _, 0 => i + 1
    | some e, fuel + 1 =>
      if retryIf e then backoffAttemptsFrom script (i + 1) fuel
      else i + 1

/-- Attempts performed by one backoff call with failAfter = 7. -/
def backoffAttempts (script : Nat → Option JsError) : Nat :=
  backoffAttemptsFrom script 0 failAfterVal

/-! ## getSizeFromUrl and the filesToDownload upgrade (claim C1)

Embeds getSizeFromUrl (part_001 lines 54-67): the first match of the
regular expression dash-or-slash, digits, px- yields width; otherwise the
first match of dash, digits-or-dots, x-dot yields mult; at most one of
the two fields is ever set. The store update embeds saveArticles.ts lines
100-109: an entry is overwritten in full exactly when there is no entry
yet or the existing width or mult compares strictly below the new one;
comparisons where either side is undefined are false in JavaScript. -/

/-- ASCII digit test, as the character class 0-9. -/
def isDigitCh (c : Char) : Bool := '0' ≤ c && c ≤ '9'

/-- Numeric value of a digit string, as JavaScript Number on digits. -/
def natOfDigits (l : List Char) : Nat :=
  l.foldl (fun a c => 10 * a + (c.toNat - '0'.toNat)) 0

/-- Whether the first list starts with the second. -/
def startsWithL : List Char → List Char → Bool
  | _, [] => true
  | [], _ => false
  | c :: l, p :: ps => c == p && startsWithL l ps

/-- Leftmost match of the width pattern (slash or dash, then one or more
digits, then the literal px-). Digit runs are maximal: a shorter run would
have to be followed by the letter p, which is not a digit, so only the
maximal run can complete a match, as in the regex engine. -/
def widthScan : List Char → Option Nat
  | [] => none
  | c :: rest =>
    if c == '/' || c == '-' then
      let ds := rest.takeWhile isDigitCh
      if !ds.isEmpty && startsWithL (rest.drop ds.length) ['p', 'x', '-'] then
        some (natOfDigits ds)
      else widthScan rest
    else widthScan rest

/-- Leftmost match of the mult pattern (dash, then one or more digits or
dots, then x followed by a dot); returns the matched group. -/
def multScan : List Char → Option (List Char)
  | [] => none
  | c :: rest =>
    if c == '-' then
      let run := rest.takeWhile (fun d => isDigitCh d || d == '.')
      if !run.isEmpty && startsWithL (rest.drop run.length) ['x', '.'] then
        some run
      else multScan rest
    else multScan rest

/-- JavaScript Number applied to a nonempty string of digits and dots:
plain digits give the integer, one dot gives a decimal (a missing side
counts as zero unless both sides are missing), anything with two or more
dots is NaN, modelled as none. -/
def parseJsNumber (l : List Char) : Option ℚ :=
  match l.splitOn '.' with
  | [ds] => some (natOfDigits ds : ℚ)
  | [is, fs] =>
    if is.isEmpty && fs.isEmpty then none
    else some ((natOfDigits is : ℚ) + (natOfDigits fs : ℚ) / (10 : ℚ) ^ fs.length)
  | _ => none

/-- The mult and width extracted from a media URL. -/
structure SizeInfo where
  width : Option Nat
  mult : Option ℚ
  deriving DecidableEq, Repr

/-- getSizeFromUrl (part_001 lines 54-67). -/
def getSizeFromUrl (url : String) : SizeInfo :=
  match widthScan url.data with
  | some w => { width := some w, mult := none }
  | none =>
    match multScan url.data with
    | some run => { width := none, mult := parseJsNumber run }
    | none => { width := none, mult := none }

/-- JavaScript strict less-than on possibly-undefined numbers: any
comparison involving undefined (or NaN) is false. -/
def jsLtN : Option Nat → Option Nat → Bool
  | some a, some b => decide (a < b)
  | _, _ => false

/-- JavaScript strict less-than on possibly-undefined rationals. -/
def jsLtQ : Option ℚ → Option ℚ → Bool
  | some a, some b => decide (a < b)
  | _, _ => false

/-- An entry of the filesToDownload store (saveArticles.ts lines 23-28). -/
structure FileEntry where
  url : String
  ns : String
  mult : Option ℚ
  width : Option Nat
  deriving DecidableEq, Repr

/-- One insertion into filesToDownload for a fixed archive path
(saveArticles.ts lines 100-109): the entry is replaced in full when
there is no entry or the existing width or mult is strictly below the
new one. -/
def fileStoreUpdate (existing : Option FileEntry) (depUrl : String) :
    Option FileEntry :=
  let s := getSizeFromUrl depUrl
  match existing with
  | none => some { url := depUrl, ns := "I", mult := s.mult, width := s.width }
  | some e =>
    if jsLtN e.width s.width || jsLtQ e.mult s.mult then
      some { url := depUrl, ns := "I", mult := s.mult, width := s.width }
    else some e

/-- The entry stored for one archive path after a sequence of insertions
during the article scrape phase. -/
def fileStoreRun (urls : List String) : Option FileEntry :=
  urls.foldl fileStoreUpdate none

/-- The maximum width carried by a list of insertions (absent widths
count as zero). -/
def listMaxWidth (urls : List String) : Nat :=
  urls.foldl (fun m u => Nat.max m (((getSizeFromUrl u).width).getD 0)) 0

/-! ## A small document model (claims C6 and C8)

Elements carry their nodeName as domino stores it for HTML documents
(upper case) and a list of child nodes; text nodes carry their data.
Nodes are addressed by the path of child indices from the root.
getElementsByTagName is domino.FilteredElementList: a live collection
that re-traverses the current tree on every access, in document order.
DOMUtils.deleteNode is repo code that is not under src/.
Modelled from the spec: deleting a node removes it from its parent
(the headings "are deleted" from the document), and the following
element sibling is the next sibling that is an element. -/

/-- A DOM node: an element with a tag and children, or a text node. -/
inductive El where
  | elem (tag : String) (children : List El)
  | txt (s : String)

mutual

/-- Paths (in document order, the node itself first) of the elements with
the given nodeName, re-computed from the current tree like a live
FilteredElementList. -/
def collectTag (t : String) (p : List Nat) : El → List (List Nat)
  | .txt _ => []
  | .elem tag cs => (if tag = t then [p] else []) ++ collectTagChildren t p 0 cs

/-- Collects over a child list, numbering children from i. -/
def collectTagChildren (t : String) (p : List Nat) (i : Nat) :
    List El → List (List Nat)
  | [] => []
  | c :: cs => collectTag t (p ++ [i]) c ++ collectTagChildren t p (i + 1) cs

end

mutual

/-- The node at a path, if any. -/
def getAt : El → List Nat → Option El
  | e, [] => some e
  | .txt _, _ :: _ => none
  | .elem _ cs, i :: p => getAtList cs i p

/-- Lookup into a child list. -/
def getAtList : List El → Nat → List Nat → Option El
  | [], _, _ => none
  | c :: _, 0, p => getAt c p
  | _ :: cs, i + 1, p => getAtList cs i p

end

mutual

/-- Removes the node at a path from its parent (DU.deleteNode). The root
itself cannot be removed. -/
def deleteAt : El → List Nat → El
  | e, [] => e
  | .txt s, _ :: _ => .txt s
  | .elem t cs, [i] => .elem t (cs.eraseIdx i)
  | .elem t cs, i :: j :: p => .elem t (deleteAtList cs i (j :: p))

/-- Deletion inside a child list. -/
def deleteAtList : List El → Nat → List Nat → List El
  | [], _, _ => []
  | c :: cs, 0, p => deleteAt c p :: cs
  | c :: cs, i + 1, p => c :: deleteAtList cs i p

end

/-- The first element node of a node list, skipping text nodes. -/
def firstElemFrom : List El → Option El
  | [] => none
  | .elem t cs :: _ => some (.elem t cs)
  | .txt _ :: rest => firstElemFrom rest

/-- The following element sibling of the node at a path
(DU.nextElementSibling, modelled from the spec). -/
def nextElemSib (root : El) (p : List Nat) : Option El :=
  match p.getLast? with
  | none => none
  | some i =>
    match getAt root p.dropLast with
    | some (.elem _ cs) => firstElemFrom (cs.drop (i + 1))
    | _ => none

/-- The nodeName of the parent of the node at a path. -/
def parentTagAt (root : El) (p : List Nat) : Option String :=
  if p.isEmpty then none
  else
    match getAt root p.dropLast with
    | some (.elem t _) => some t
    | _ => none

/-- ASCII lower-casing of one character, as String.toLowerCase acts on
tag names. -/
def lowerCh (c : Char) : Char :=
  if 'A' ≤ c && c ≤ 'Z' then Char.ofNat (c.toNat + 32) else c

/-- The nodeName domino gives a heading of this level, upper case. -/
def hTagU (level : Nat) : String := "H" ++ toString level

/-- The test of saveArticles.ts lines 608-614 on the lower-cased tag of
the next element sibling: length above one, first character h, second
character a digit whose value is at most the current level (JavaScript
coerces the digit character for the comparison). -/
def isHeadingLeqLevel (tag : String) (level : Nat) : Bool :=
  match tag.data.map lowerCh with
  | c0 :: c1 :: _ =>
    c0 == 'h' && isDigitCh c1 && decide (c1.toNat - '0'.toNat ≤ level)
  | _ => false

/-- The loop body of saveArticles.ts lines 598-619 at one node: skip when
the parent is SUMMARY; delete when there is no following element sibling;
delete when the next element sibling is a heading of equal-or-lower
level. -/
def processHeadingAt (level : Nat) (doc : El) (p : List Nat) : El :=
  if parentTagAt doc p == some "SUMMARY" then doc
  else
    match nextElemSib doc p with
    | none => deleteAt doc p
    | some (.elem t _) => if isHeadingLeqLevel t level then deleteAt doc p else doc
    | some (.txt _) => doc

/-- The for loop of saveArticles.ts lines 597-619 over the live node list
of one heading level: the index advances by one per iteration and the
list is re-computed from the mutated tree on each access, exactly as a
live collection behaves. The fuel is the initial list length, which
bounds the number of iterations since the index grows and the list never
does. -/
def passLevelGo (level : Nat) : Nat → Nat → El → El
  | 0, _, doc => doc
  | fuel + 1, i, doc =>
    let nodes := collectTag (hTagU level) [] doc
    match nodes[i]? with
    | none => doc
    | some p => passLevelGo level fuel (i + 1) (processHeadingAt level doc p)

/-- One heading level of the empty-paragraph removal. -/
def passLevel (level : Nat) (doc : El) : El :=
  passLevelGo level (collectTag (hTagU level) [] doc).length 0 doc

/-- The empty-paragraph removal of applyOtherTreatments (saveArticles.ts
lines 593-621): skipped entirely when keepEmptyParagraphs is set,
otherwise one pass per heading level from 5 down to 1. -/
def removeEmptyParagraphs (keepEmptyParagraphs : Bool) (doc : El) : El :=
  if keepEmptyParagraphs then doc
  else [5, 4, 3, 2, 1].foldl (fun d level => passLevel level d) doc

mutual

/-- The concatenated text data below a node (textContent). -/
def textContentEl : El → String
  | .txt s => s
  | .elem _ cs => textContentList cs

/-- textContent of a node list. -/
def textContentList : List El → String
  | [] => ""
  | c :: cs => textContentEl c ++ textContentList cs

end

/-- getStrippedTitleFromHtml (part_001 lines 258-266): the textContent of
the first TITLE element of the parsed document, or the empty string. -/
def getStrippedTitleFromHtml (doc : El) : String :=
  match collectTag "TITLE" [] doc with
  | [] => ""
  | p :: _ =>
    match getAt doc p with
    | some e => textContentEl e
    | none => ""

/-! ## Display title selection (claim C8)

Embeds the displayTitle computations of renderArticle
(articleRenderers.ts lines 24-31 for the desktop path and lines 59-71
for the mobile path). JavaScript or on strings takes the right operand
exactly when the left one is empty. -/

/-- JavaScript logical or specialised to strings. -/
def jsOrStr (a b : String) : String := if a = "" then b else a

/-- JavaScript replace with the one-character string pattern underscore:
only the first occurrence is replaced (articleRenderers.ts line 29). -/
def replaceFirstUnderscoreL : List Char → List Char
  | [] => []
  | '_' :: r => ' ' :: r
  | c :: r => c :: replaceFirstUnderscoreL r

/-- articleId.replace(underscore, space) — first occurrence only. -/
def replaceFirstUnderscore (s : String) : String :=
  ⟨replaceFirstUnderscoreL s.data⟩

/-- articleId.replace(/_/g, space) — every occurrence
(articleRenderers.ts line 69). -/
def replaceAllUnderscores (s : String) : String :=
  ⟨s.data.map (fun c => if c = '_' then ' ' else c)⟩

/-- The textContent the code reads back from the span wrapping the
displaytitle (articleRenderers.ts lines 62-64): the interpolated string
span class=mw-title ... is parsed by domino (the external library), so
the parsed span children are the model input, exactly as parsed
documents are for getStrippedTitleFromHtml; textContent concatenates
the text data below them, stripping any markup. The interpolated string
is the lead displaytitle when the lead is present and the article id
otherwise (the default object on line 62). -/
def spanWrapTextContent (spanChildren : List El) : String :=
  textContentList spanChildren

/-- The displayTitle of the desktop path (articleRenderers.ts line 29):
the stripped title of the rendered document, or the article id with its
first underscore replaced. -/
def desktopDisplayTitle (doc : El) (articleId : String) : String :=
  jsOrStr (getStrippedTitleFromHtml doc) (replaceFirstUnderscore articleId)

/-- The displayTitle of shard i on the mobile path (articleRenderers.ts
lines 60-69): the stripped title of the rendered document; when that is
empty, the textContent of the span domino parses from the interpolated
displaytitle; when that is empty too (absent displaytitle, or one whose
markup holds no text), the article id with every underscore replaced;
shards beyond the first append a slash and the shard index. -/
def mcsDisplayTitle (doc : El) (titleSpanChildren : List El)
    (articleId : String) (i : Nat) : String :=
  let st := getStrippedTitleFromHtml doc
  let st :=
    if st = "" then spanWrapTextContent titleSpanChildren
    else st
  jsOrStr st (replaceAllUnderscores articleId)
    ++ (if i = 0 then "" else "/" ++ toString i)

/-! ## Image download through the blob cache (claim C5)

Embeds downloadImage (part_002 lines 609-642) together with
removeEtagWeakPrefix (part_002 lines 242-244). The download is modelled
as a pure function of the cached blob (what s3.downloadBlob returns) and
the upstream response to the conditional GET. -/

/-- FIND_HTTP_REGEX lives in util/const.ts, which is not under src/.
Modelled from the spec: stripHttp removes the URL scheme marker from the
front of the URL, giving the blob-cache key. -/
def stripHttpFromUrl (url : String) : String :=
  if startsWithL url.data "https://".data then ⟨url.data.drop 8⟩
  else if startsWithL url.data "http://".data then ⟨url.data.drop 7⟩
  else url

/-- WEAK_ETAG_REGEX lives in util/const.ts, which is not under src/.
Modelled from the spec and from HTTP weak validators: the weak marker
W/ at the front of an entity-tag is removed; part_002 lines 242-244
apply this to both the cached and the upstream etag. -/
def removeEtagWeakMarker (etag : String) : String :=
  if startsWithL etag.data ['W', '/'] then ⟨etag.data.drop 2⟩ else etag

/-- What s3.downloadBlob returns for the key: the stored body and the
stored Metadata.etag. -/
structure CachedBlob where
  body : String
  metaEtag : Option String
  deriving DecidableEq, Repr

/-- The upstream response to the (possibly conditional) GET; the status
validator of the request options accepts 2xx and 304. -/
structure UpstreamResp where
  status : Nat
  etagHeader : Option String
  data : String
  deriving DecidableEq, Repr

/-- The observable outcome of downloadImage: the If-None-Match header the
upstream GET carried, the blob-cache uploads performed (key, body,
etag), whether the returned bytes came from the cache, and the bytes. -/
structure ImageDownloadResult where
  ifNoneMatchSent : Option String
  uploads : List (String × String × String)
  contentFromCache : Bool
  content : String
  deriving DecidableEq, Repr

/-- downloadImage (part_002 lines 609-642): a truthy cached Metadata.etag
is weak-stripped and sent as If-None-Match; a 304 answer returns the
cached body and the stored headers and uploads nothing; otherwise the
weak-stripped upstream etag, when truthy, keys an asynchronous upload of
the body under stripHttp(url). -/
def downloadImage (url : String) (cached : Option CachedBlob)
    (resp : UpstreamResp) : Except String ImageDownloadResult :=
  let inm : Option String :=
    match cached with
    | some b =>
      match b.metaEtag with
      | some e => if e = "" then none else some (removeEtagWeakMarker e)
      | none => none
    | none => none
  if resp.status == 304 then
    match cached with
    | some b =>
      .ok { ifNoneMatchSent := inm, uploads := [], contentFromCache := true,
            content := b.body }
    | none => .error "TypeError"
  else
    let uploads :=
      match resp.etagHeader with
      | some e =>
        if removeEtagWeakMarker e = "" then []
        else [(stripHttpFromUrl url, resp.data, removeEtagWeakMarker e)]
      | none => []
    .ok { ifNoneMatchSent := inm, uploads := uploads, contentFromCache := false,
          content := resp.data }

/-! ## URL serialization (claim C9)

Embeds serializeUrl and deserializeUrl (part_002 lines 160-181). The
urlPartCache object is modelled as an association list in insertion
order, which is how JavaScript enumerates an object with ascending
numeric keys. -/

/-- First index at which the pattern occurs in the haystack. -/
def indexOfSubFrom (pat : List Char) : List Char → Nat → Option Nat
  | hay, i =>
    if startsWithL hay pat then some i
    else
      match hay with
      | [] => none
      | _ :: rest => indexOfSubFrom pat rest (i + 1)

/-- JavaScript String.replace with a plain-string pattern: removes the
first occurrence of the pattern, or returns the string unchanged. -/
def replaceFirstSub (s pat : String) : String :=
  match indexOfSubFrom pat.data s.data 0 with
  | none => s
  | some i => ⟨s.data.take i ++ s.data.drop (i + pat.data.length)⟩

/-- Modelled from Node legacy url.parse (external library): for a URL
containing the authority marker, path is pathname plus search —
everything from the first slash or question mark after the authority,
with any fragment removed; null (none) when that part is empty or is
only a fragment. -/
def jsUrlPath (url : String) : Option String :=
  match indexOfSubFrom [':', '/', '/'] url.data 0 with
  | none => none
  | some i =>
    let rest := url.data.drop (i + 3)
    let auth := rest.takeWhile (fun c => !(c == '/' || c == '?' || c == '#'))
    match rest.drop auth.length with
    | [] => none
    | '#' :: _ => none
    | r => some ⟨r.takeWhile (fun c => c != '#')⟩

/-- serializeUrl (part_002 lines 160-173): the path is parsed out of the
URL (null stringifies to the word null on both uses), the remainder is
the cacheable part, an existing cache entry with that value is reused
and otherwise a fresh numeric id (the current cache size plus one) is
registered; the result is the id between underscores followed by the
path. -/
def serializeUrl (cache : List (String × String)) (url : String) :
    String × List (String × String) :=
  let pathJs : String := (jsUrlPath url).getD "null"
  let cacheablePart := replaceFirstSub url pathJs
  match cache.find? (fun e => e.2 == cacheablePart) with
  | some e => ("_" ++ e.1 ++ "_" ++ pathJs, cache)
  | none =>
    let cacheId := toString (cache.length + 1)
    ("_" ++ cacheId ++ "_" ++ pathJs, cache ++ [(cacheId, cacheablePart)])

/-- JavaScript String.split on the underscore character: every separator
opens a new (possibly empty) segment. -/
def splitOnUnd : List Char → List (List Char)
  | [] => [[]]
  | '_' :: rest => [] :: splitOnUnd rest
  | c :: rest =>
    match splitOnUnd rest with
    | seg :: segs => (c :: seg) :: segs
    | [] => [[c]]

/-- Array.join with the underscore separator. -/
def joinUnd : List (List Char) → List Char
  | [] => []
  | [l] => l
  | l :: ls => l ++ '_' :: joinUnd ls

/-- deserializeUrl (part_002 lines 175-181): strings not starting with an
underscore pass through; otherwise the string splits on underscores into
an empty head, the cache id, and the path parts, which are re-joined
with underscores and appended to the cached part (a missing cache entry
stringifies to the word undefined). -/
def deserializeUrl (cache : List (String × String)) (url : String) : String :=
  if !startsWithL url.data ['_'] then url
  else
    match splitOnUnd url.data with
    | _ :: cacheId :: pathParts =>
      (((cache.find? (fun e => e.1 == (⟨cacheId⟩ : String))).map Prod.snd).getD
          "undefined")
        ++ (⟨joinUnd pathParts⟩ : String)
    | _ => url

/-! ## treatVideo on a video without sources (claim C7)

Embeds the statement sequence of treatVideo (saveArticles.ts lines
246-307) far enough to decide the claim, together with getFullUrl
(part_001 lines 50-52), which is new URL(url, baseUrl).toString(). -/

/-- Modelled from the WHATWG URL constructor (external library): a base
that has no URL scheme cannot be parsed and makes the constructor throw
TypeError Invalid URL. JavaScript null passed as the base stringifies to
the word null, which has no scheme. Resolution of a relative url against
a valid base is approximated (the claim only exercises the throwing
path). -/
def hasUrlScheme (s : String) : Bool :=
  startsWithL s.data "http://".data || startsWithL s.data "https://".data

/-- new URL(url, base).toString(). -/
def newURLjs (url : String) (base : String) : Except String String :=
  if hasUrlScheme base then
    .ok (if hasUrlScheme url then url else base ++ "/" ++ url)
  else .error "Invalid URL"

/-- getFullUrl (part_001 lines 50-52). -/
def getFullUrl (url : String) (baseUrl : String) : Except String String :=
  newURLjs url baseUrl

/-- JavaScript string coercion of a nullable attribute value. -/
def jsStringOfNullable : Option String → String
  | none => "null"
  | some s => s

/-- The attributes of a video element that treatVideo reads: the poster
attribute and the src attributes of the SOURCE children. -/
structure VideoEl where
  poster : Option String
  sources : List (Option String)
  deriving DecidableEq, Repr

/-- The three format flags treatVideo consults (saveArticles.ts
line 268). -/
structure DumpFlags where
  nopic : Bool
  novid : Bool
  nodet : Bool
  deriving DecidableEq, Repr

/-- Whether the video element survives the pass. -/
inductive VideoOutcome where
  | deleted
  | kept
  deriving DecidableEq, Repr

/-- treatVideo (saveArticles.ts lines 246-307) in statement order:
line 255 builds the full poster URL with getFullUrl(webUrlHost,
posterUrl) — webUrlHost as the url, the poster attribute as the base —
before anything else; the nopic / novid / nodet deletion is line 268;
line 287 takes videoSources[0], which is undefined when the element has
no SOURCE child, and line 289 reads its src attribute. The emitted
media dependencies are the poster URL and the surviving source URL
(the per-article srcCache deduplication is modelled with claim C10). -/
def treatVideoRun (webUrlHost : String) (flags : DumpFlags) (v : VideoEl) :
    Except String (VideoOutcome × List String) := do
  let posterUrl := v.poster
  let videoPosterUrl ← getFullUrl webUrlHost (jsStringOfNullable posterUrl)
  if flags.nopic || flags.novid || flags.nodet then
    return (.deleted, [])
  let deps := [videoPosterUrl]
  match v.sources with
  | [] => throw "TypeError: videoSources[0] is undefined"
  | s0 :: _ => do
    let sourceUrl ← getFullUrl webUrlHost (jsStringOfNullable s0)
    return (.kept, deps ++ [sourceUrl])

/-! # Theorems -/

/-! ## Claim C3 -/

theorem maxActiveStep_bounds (m : Nat) (hm : 1 ≤ m) (e : DlEvent) :
    1 ≤ maxActiveStep m e ∧ maxActiveStep m e ≤ m := by
  cases e with
  | other => exact ⟨hm, Nat.le_refl m⟩
  | recv429 =>
    refine ⟨Nat.le_max_right _ _, Nat.max_le.mpr ⟨?_, hm⟩⟩
    omega

theorem maxActiveFold_bounds (evs : List DlEvent) :
    ∀ m, 1 ≤ m → 1 ≤ evs.foldl maxActiveStep m ∧ evs.foldl maxActiveStep m ≤ m := by
  induction evs with
  | nil => intro m hm; exact ⟨hm, Nat.le_refl m⟩
  | cons e es ih =>
    intro m hm
    have hb := maxActiveStep_bounds m hm e
    have hr := ih (maxActiveStep m e) hb.1
    exact ⟨hr.1, Nat.le_trans hr.2 hb.2⟩

/-- Claim C3: in every reachable state of the Downloader (that is, after
any sequence of observed events starting from construction with speed at
least one), maxActiveRequests is at least 1; it starts at speed * 10; it
never increases along any continuation of the run; and a 429 turns m
into max(1, ceil(0.9 * m)). -/
theorem maxActiveRequests_invariant (speed : Nat) (hs : 1 ≤ speed)
    (evs : List DlEvent) :
    1 ≤ maxActiveRun speed evs
    ∧ (∀ more, maxActiveRun speed (evs ++ more) ≤ maxActiveRun speed evs)
    ∧ maxActiveRun speed [] = speed * 10
    ∧ (∀ m, maxActiveStep m DlEvent.recv429 = Nat.max 1 ((9 * m + 9) / 10)) := by
  have h10 : 1 ≤ speed * 10 := by omega
  refine ⟨(maxActiveFold_bounds evs (speed * 10) h10).1, ?_, rfl, ?_⟩
  · intro more
    unfold maxActiveRun
    rw [List.foldl_append]
    exact (maxActiveFold_bounds more _ ((maxActiveFold_bounds evs _ h10).1)).2
  · intro m
    exact Nat.max_comm _ _

/-- Witness for claim C3 at speed 1 with two observed 429 responses. -/
theorem maxActiveRequests_invariant_witness :
    1 ≤ maxActiveRun 1 [DlEvent.recv429, DlEvent.recv429]
    ∧ maxActiveRun 1 [] = 1 * 10 :=
  ⟨(maxActiveRequests_invariant 1 (by decide) [DlEvent.recv429, DlEvent.recv429]).1,
   (maxActiveRequests_invariant 1 (by decide) []).2.2.1⟩

/-! ## Claim C4 -/

/-- Claim C4: a category with N subcategories renders into one shard when
N is at most 200 and into ceil(N/200) shards otherwise; shard 0 keeps the
original article id and shard i carries the suffix __i; every shard
points at its neighbouring shards through prevArticleId and
nextArticleId. -/
theorem category_pagination_shards (articleId : String) (subCats : List String) :
    (renderShards articleId subCats).length
        = (if subCats.length ≤ 200 then 1 else (subCats.length + 199) / 200)
    ∧ ∀ i (h : i < (renderShards articleId subCats).length),
        ((renderShards articleId subCats).get ⟨i, h⟩).articleId = shardIdOf articleId i
        ∧ ((renderShards articleId subCats).get ⟨i, h⟩).prevArticleId
            = (if i = 0 then none else some (shardIdOf articleId (i - 1)))
        ∧ ((renderShards articleId subCats).get ⟨i, h⟩).nextArticleId
            = (if i + 1 < (renderShards articleId subCats).length then
                some (shardIdOf articleId (i + 1)) else none) := by
  have hlen : (renderShards articleId subCats).length
      = numberOfPagesToSplitInto subCats.length := by
    simp [renderShards]
  have hnum : numberOfPagesToSplitInto subCats.length
      = (if subCats.length ≤ 200 then 1 else (subCats.length + 199) / 200) := by
    simp only [numberOfPagesToSplitInto, Nat.max_def]
    split <;> split <;> omega
  refine ⟨hlen.trans hnum, ?_⟩
  intro i h
  have hget : (renderShards articleId subCats).get ⟨i, h⟩
      = { articleId := shardIdOf articleId i
          nextArticleId :=
            if i + 1 < numberOfPagesToSplitInto subCats.length then
              some (articleId ++ "__" ++ toString (i + 1))
            else none
          prevArticleId :=
            if i = 0 then none
            else if i - 1 = 0 then some articleId
            else some (articleId ++ "__" ++ toString (i - 1))
          subCategories := (subCats.drop (i * 200)).take 200 } := by
    simp [renderShards, List.get_eq_getElem]
  refine ⟨by rw [hget], ?_, ?_⟩
  · rw [hget]
    rcases i with _ | i
    · rfl
    · rcases i with _ | i
      · simp [shardIdOf]
      · simp [shardIdOf]
  · rw [hget, hlen]
    rcases Nat.decLt (i + 1) (numberOfPagesToSplitInto subCats.length) with hlt | hlt
    · simp only [if_neg hlt]
    · simp only [if_pos hlt, shardIdOf, if_neg (Nat.succ_ne_zero i)]

set_option maxRecDepth 4000 in
/-- Witness for claim C4: the boundary shard counts 200, 201, 400 and 401,
and the neighbour pointers of the two shards of a 201-subcategory
category. -/
theorem category_pagination_shards_witness :
    (renderShards "C" (List.replicate 200 "x")).length = 1
    ∧ (renderShards "C" (List.replicate 201 "x")).length = 2
    ∧ (renderShards "C" (List.replicate 400 "x")).length = 2
    ∧ (renderShards "C" (List.replicate 401 "x")).length = 3
    ∧ ((renderShards "C" (List.replicate 201 "x")).get ⟨0, by decide⟩).nextArticleId
        = some "C__1"
    ∧ ((renderShards "C" (List.replicate 201 "x")).get ⟨1, by decide⟩).prevArticleId
        = some "C" := by
  refine ⟨?_, ?_, ?_, ?_, ?_, ?_⟩
  · exact ((category_pagination_shards "C" (List.replicate 200 "x")).1).trans (by decide)
  · exact ((category_pagination_shards "C" (List.replicate 201 "x")).1).trans (by decide)
  · exact ((category_pagination_shards "C" (List.replicate 400 "x")).1).trans (by decide)
  · exact ((category_pagination_shards "C" (List.replicate 401 "x")).1).trans (by decide)
  · exact (((category_pagination_shards "C" (List.replicate 201 "x")).2 0 (by decide)).2.2).trans
      (by decide)
  · exact (((category_pagination_shards "C" (List.replicate 201 "x")).2 1 (by decide)).2.1).trans
      (by decide)

/-! ## Claim C10 -/

theorem pushIfNew_fold_nodup (cands : List String) :
    ∀ st : List String × List String, st.2.Nodup → (∀ u ∈ st.2, u ∈ st.1) →
      ((cands.foldl pushIfNew st).2).Nodup := by
  induction cands with
  | nil => intro st h1 _; exact h1
  | cons c cs ih =>
    intro st h1 h2
    simp only [List.foldl_cons]
    by_cases hc : c ∈ st.1
    · have heq : pushIfNew st c = st := by simp [pushIfNew, hc]
      rw [heq]; exact ih st h1 h2
    · have heq : pushIfNew st c = (c :: st.1, st.2 ++ [c]) := by simp [pushIfNew, hc]
      rw [heq]
      have hcn : c ∉ st.2 := fun hm => hc (h2 c hm)
      refine ih _ ?_ ?_
      · simp [List.nodup_append, h1, hcn]
      · intro u hu
        rcases List.mem_append.mp hu with hu | hu
        · exact List.mem_cons_of_mem _ (h2 u hu)
        · simp at hu
          simp [hu]

/-- Claim C10: the media-dependency list emitted for one article contains
each URL at most once — every push in treatVideo and treatImage is
guarded by the shared per-article srcCache. -/
theorem mediaDeps_nodup (candidates : List String) :
    (treatMediasDeps candidates).Nodup :=
  pushIfNew_fold_nodup candidates ([], []) (by simp) (by simp)

/-! ## Claim C2 -/

/-- Counterexample to claim C2: a 500 response on getJSON satisfies the
retry predicate, but getJSONCb never hands the error to the backoff
layer — it matches neither the 429 branch nor the 404 branch and is
silently dropped, so no retry (and no failure) ever happens. -/
theorem downloader_retry_counterexample :
    getJSONCbOnError { code := none, responseStatus := some 500 } = CbAction.swallowed
    ∧ retryIf { code := none, responseStatus := some 500 } = true
    ∧ CbAction.swallowed ≠ CbAction.forwardError := by decide

theorem backoffAttemptsFrom_le (script : Nat → Option JsError) :
    ∀ fuel i, backoffAttemptsFrom script i fuel ≤ i + fuel + 1 := by
  intro fuel
  induction fuel with
  | zero =>
    intro i
    unfold backoffAttemptsFrom
    cases script i <;> simp
  | succ n ih =>
    intro i
    unfold backoffAttemptsFrom
    cases hs : script i with
    | none => simp
    | some e =>
      cases hr : retryIf e
      · simp [hr]
      · simp only [hr, if_true]
        have := ih (i + 1)
        omega

/-- Claim C2 amended: the backoff options use failAfter = 7 and a retry
predicate that rejects exactly a plain 404 (no client abort); every
downloadContent error reaches the backoff layer; but getJSON hands the
backoff layer only 404 errors (surfaced immediately, without retry),
retries 429 internally outside the backoff cap, and silently drops every
other error; a backoff call performs at most failAfter + 1 attempts and
stops after one attempt when the error is not retriable. -/
theorem downloader_retry_amended :
    failAfterVal = 7
    ∧ (∀ e : JsError, retryIf e = false ↔
        (e.code ≠ some "ECONNABORTED" ∧ e.responseStatus = some 404))
    ∧ (∀ e : JsError, getContentCbOnError e = CbAction.forwardError)
    ∧ (∀ e : JsError, getJSONCbOnError e = CbAction.forwardError ↔
        e.responseStatus = some 404)
    ∧ (∀ e : JsError, getJSONCbOnError e = CbAction.internalRetry429 ↔
        e.responseStatus = some 429)
    ∧ (∀ script, backoffAttempts script ≤ failAfterVal + 1)
    ∧ (∀ (script : Nat → Option JsError) e, script 0 = some e →
        retryIf e = false → backoffAttempts script = 1) := by
  refine ⟨rfl, ?_, fun _ => rfl, ?_, ?_, ?_, ?_⟩
  · intro e
    simp [retryIf]
  · intro e
    constructor
    · intro h
      unfold getJSONCbOnError at h
      by_cases h429 : e.responseStatus == some 429
      · simp [h429] at h
      · by_cases h404 : e.responseStatus == some 404
        · exact beq_iff_eq.mp h404
        · simp [h429, h404] at h
    · intro h
      have : e.responseStatus ≠ some 429 := by rw [h]; decide
      simp [getJSONCbOnError, h, this]
  · intro e
    constructor
    · intro h
      unfold getJSONCbOnError at h
      by_cases h429 : e.responseStatus == some 429
      · exact beq_iff_eq.mp h429
      · by_cases h404 : e.responseStatus == some 404 <;> simp [h429, h404] at h
    · intro h
      simp [getJSONCbOnError, h]
  · intro script
    have := backoffAttemptsFrom_le script failAfterVal 0
    unfold backoffAttempts
    omega
  · intro script e h0 hr
    unfold backoffAttempts backoffAttemptsFrom
    rw [h0]
    simp [failAfterVal, hr]

/-- Witness for claim C2 at concrete errors: downloadContent forwards a
500 error to backoff, and a backoff run that fails with a plain 404 on
its first attempt performs exactly one attempt. -/
theorem downloader_retry_amended_witness :
    getContentCbOnError { code := none, responseStatus := some 500 }
      = CbAction.forwardError
    ∧ backoffAttempts (fun _ => some { code := none, responseStatus := some 404 }) = 1 :=
  ⟨downloader_retry_amended.2.2.1 { code := none, responseStatus := some 500 },
   downloader_retry_amended.2.2.2.2.2.2
     (fun _ => some { code := none, responseStatus := some 404 })
     { code := none, responseStatus := some 404 } rfl (by decide)⟩

/-! ## Claim C1 -/

/-- Counterexample to claim C1: a width-bearing insertion followed by a
mult-bearing insertion for the same archive path ends with an entry whose
mult is absent, although the maximum mult over the insertions is 2 — an
upgrade replaces the whole entry, it does not take field-wise maxima, and
a mult never upgrades a width-bearing entry. -/
theorem fileStore_upgrade_counterexample :
    fileStoreRun ["https://x/100px-a.png", "https://x/a-2x.png"]
      = some { url := "https://x/100px-a.png", ns := "I", mult := none, width := some 100 }
    ∧ (getSizeFromUrl "https://x/a-2x.png").mult = some 2
    ∧ some (2 : ℚ) ≠ (none : Option ℚ) := by
  refine ⟨rfl, by decide, by decide⟩

theorem jsLtQ_none_right (x : Option ℚ) : jsLtQ x none = false := by
  cases x <;> rfl

theorem width_isSome_mult_none (u : String)
    (h : ((getSizeFromUrl u).width).isSome = true) :
    (getSizeFromUrl u).mult = none := by
  unfold getSizeFromUrl at h ⊢
  cases hw : widthScan u.data with
  | some w => simp [hw]
  | none =>
    cases hm : multScan u.data with
    | some run => simp [hw, hm] at h
    | none => simp [hw, hm] at h

theorem fileStoreFold_width (urls : List String) :
    ∀ (e : FileEntry) (w : Nat), e.width = some w →
      (∀ u ∈ urls, ((getSizeFromUrl u).width).isSome = true) →
      ∃ e', urls.foldl fileStoreUpdate (some e) = some e'
        ∧ e'.width = some (urls.foldl
            (fun m u => Nat.max m (((getSizeFromUrl u).width).getD 0)) w) := by
  induction urls with
  | nil =>
    intro e w he _
    exact ⟨e, rfl, by simpa using he⟩
  | cons u us ih =>
    intro e w he hall
    have hu : ((getSizeFromUrl u).width).isSome = true := hall u (by simp)
    obtain ⟨wu, hwu⟩ := Option.isSome_iff_exists.mp hu
    have hmu : (getSizeFromUrl u).mult = none := width_isSome_mult_none u hu
    have hcond : (jsLtN e.width (getSizeFromUrl u).width
        || jsLtQ e.mult (getSizeFromUrl u).mult) = decide (w < wu) := by
      rw [he, hwu, hmu, jsLtQ_none_right]
      simp [jsLtN]
    simp only [List.foldl_cons]
    by_cases hlt : w < wu
    · have hstep : fileStoreUpdate (some e) u
          = some { url := u, ns := "I", mult := (getSizeFromUrl u).mult,
                   width := (getSizeFromUrl u).width } := by
        simp only [fileStoreUpdate]
        rw [hcond]
        simp [hlt]
      rw [hstep]
      obtain ⟨e', h1, h2⟩ := ih
        { url := u, ns := "I", mult := (getSizeFromUrl u).mult,
          width := (getSizeFromUrl u).width } wu (by simpa using hwu)
        (fun v hv => hall v (by simp [hv]))
      refine ⟨e', h1, ?_⟩
      rw [h2, hwu]
      simp [Nat.max_eq_right (Nat.le_of_lt hlt)]
    · have hstep : fileStoreUpdate (some e) u = some e := by
        simp only [fileStoreUpdate]
        rw [hcond]
        simp [hlt]
      rw [hstep]
      obtain ⟨e', h1, h2⟩ := ih e w he (fun v hv => hall v (by simp [hv]))
      refine ⟨e', h1, ?_⟩
      rw [h2, hwu]
      simp [Nat.max_eq_left (Nat.not_lt.mp hlt)]

/-- Claim C1 amended: an existing entry is replaced exactly when the newly
inserted width or mult compares strictly greater (comparisons against an
absent value are false), and the replacement overwrites the whole entry;
consequently, when every insertion carries a width (the px URLs), the
final stored width is the maximum width over the insertions — but the
final entry need not carry field-wise maxima, as the counterexample
shows. -/
theorem fileStore_upgrade_amended (urls : List String) (hne : urls ≠ [])
    (hw : ∀ u ∈ urls, ((getSizeFromUrl u).width).isSome = true) :
    (∃ e, fileStoreRun urls = some e ∧ e.width = some (listMaxWidth urls))
    ∧ ∀ (e : FileEntry) (u : String),
        jsLtN e.width (getSizeFromUrl u).width = false →
        jsLtQ e.mult (getSizeFromUrl u).mult = false →
        fileStoreUpdate (some e) u = some e := by
  constructor
  · match urls, hne with
    | u :: us, _ =>
      have hu := hw u (by simp)
      obtain ⟨wu, hwu⟩ := Option.isSome_iff_exists.mp hu
      have hfirst : fileStoreUpdate none u
          = some { url := u, ns := "I", mult := (getSizeFromUrl u).mult,
                   width := (getSizeFromUrl u).width } := by
        simp [fileStoreUpdate]
      unfold fileStoreRun
      simp only [List.foldl_cons, hfirst]
      obtain ⟨e', h1, h2⟩ := fileStoreFold_width us
        { url := u, ns := "I", mult := (getSizeFromUrl u).mult,
          width := (getSizeFromUrl u).width } wu (by simpa using hwu)
        (fun v hv => hw v (by simp [hv]))
      refine ⟨e', h1, ?_⟩
      rw [h2]
      unfold listMaxWidth
      simp only [List.foldl_cons, hwu, Option.getD_some, Nat.zero_max]
  · intro e u h1 h2
    simp [fileStoreUpdate, h1, h2]

/-- Witness for claim C1 at two concrete width-bearing insertions. -/
theorem fileStore_upgrade_amended_witness :
    ∃ e, fileStoreRun ["https://x/50px-a.png", "https://x/100px-b.png"] = some e
      ∧ e.width = some (listMaxWidth ["https://x/50px-a.png", "https://x/100px-b.png"]) :=
  (fileStore_upgrade_amended ["https://x/50px-a.png", "https://x/100px-b.png"]
    (by decide) (by decide)).1

/-! ## Claim C6 -/

/-- A body holding two adjacent h3 headings and nothing else. -/
def h3h3Doc : El :=
  El.elem "BODY" [El.elem "H3" [El.txt "a"], El.elem "H3" [El.txt "b"]]

/-- Counterexample to claim C6: on a body holding exactly two adjacent h3
headings, the pass deletes only the first — the for loop walks the live
node list with an index that keeps advancing after a deletion, so the
second h3 (now at the deleted position) is skipped and survives, while
the claim says both are deleted. -/
theorem heading_removal_counterexample :
    removeEmptyParagraphs false h3h3Doc = El.elem "BODY" [El.elem "H3" [El.txt "b"]]
    ∧ El.elem "BODY" [El.elem "H3" [El.txt "b"]] ≠ El.elem "BODY" [] :=
  ⟨rfl, by simp⟩

/-- Claim C6 amended: with empty-paragraph removal on, a visited heading
whose parent is not SUMMARY is deleted when it has no following element
sibling or its next element sibling is a heading of equal-or-lower
level; but the iteration over the live node list skips the node that
slides into a deleted position, so an h3 immediately followed by an h3
(with nothing after) loses only the first heading and keeps the second;
headings inside SUMMARY are untouched, and the pass is skipped entirely
when keepEmptyParagraphs is set. -/
theorem heading_removal_amended :
    removeEmptyParagraphs false h3h3Doc = El.elem "BODY" [El.elem "H3" [El.txt "b"]]
    ∧ removeEmptyParagraphs false (El.elem "BODY" [El.elem "H3" [El.txt "a"]])
        = El.elem "BODY" []
    ∧ removeEmptyParagraphs false
          (El.elem "BODY" [El.elem "SUMMARY" [El.elem "H3" [El.txt "a"]]])
        = El.elem "BODY" [El.elem "SUMMARY" [El.elem "H3" [El.txt "a"]]]
    ∧ removeEmptyParagraphs true h3h3Doc = h3h3Doc
    ∧ removeEmptyParagraphs false
          (El.elem "BODY" [El.elem "H3" [El.txt "a"], El.elem "P" [El.txt "x"]])
        = El.elem "BODY" [El.elem "H3" [El.txt "a"], El.elem "P" [El.txt "x"]]
    ∧ removeEmptyParagraphs false (El.elem "BODY" [El.elem "H3" [], El.elem "H2" []])
        = El.elem "BODY" [] :=
  ⟨rfl, rfl, rfl, rfl, rfl, rfl⟩

/-! ## Claim C7 -/

/-- Claim C7 (code bug): on a video element with no SOURCE child and no
poster attribute, with nopic, novid and nodet all off, treatVideo does
not delete the element and does not complete normally — line 255 already
throws, because getFullUrl(webUrlHost, posterUrl) hands the absent
poster (null) to new URL as the base, which is invalid; the throw aborts
the whole article. Even past that point, videoSources[0] would be
undefined and line 289 would throw. No media URL is enqueued. -/
theorem treatVideo_posterless_throws :
    treatVideoRun "en.wikipedia.org" { nopic := false, novid := false, nodet := false }
        { poster := none, sources := [] }
      = Except.error "Invalid URL" := rfl

/-! ## Claim C8 -/

/-- A rendered document without a title element. -/
def noTitleDoc : El := El.elem "BODY" [El.txt "x"]

/-- Counterexample to claim C8: on the desktop path with no title element,
the fallback is articleId.replace(underscore, space) with a plain-string
pattern, which replaces only the first underscore, not every one. -/
theorem display_title_counterexample :
    desktopDisplayTitle noTitleDoc "a_b_c" = "a b_c"
    ∧ ("a b_c" : String) ≠ "a b c" :=
  ⟨rfl, by decide⟩

/-- Claim C8 amended: the display title is the text content of the
document's title element when that is non-empty; otherwise, on the
mobile path, the text content of the lead displaytitle parsed as HTML
(markup stripped), when that is non-empty; otherwise the article id —
with every underscore replaced by a space on the mobile path, but with
only the first underscore replaced on the desktop path; mobile shards
beyond the first append a slash and the shard index. -/
theorem display_title_amended (doc : El) (articleId : String)
    (spanChildren : List El) (i : Nat) :
    (getStrippedTitleFromHtml doc ≠ "" →
      desktopDisplayTitle doc articleId = getStrippedTitleFromHtml doc
      ∧ mcsDisplayTitle doc spanChildren articleId 0 = getStrippedTitleFromHtml doc)
    ∧ (getStrippedTitleFromHtml doc = "" →
      desktopDisplayTitle doc articleId = replaceFirstUnderscore articleId
      ∧ (spanWrapTextContent spanChildren ≠ "" →
          mcsDisplayTitle doc spanChildren articleId 0
            = spanWrapTextContent spanChildren)
      ∧ (spanWrapTextContent spanChildren = "" →
          mcsDisplayTitle doc spanChildren articleId 0
            = replaceAllUnderscores articleId))
    ∧ (i ≠ 0 → mcsDisplayTitle doc spanChildren articleId i
        = mcsDisplayTitle doc spanChildren articleId 0 ++ "/" ++ toString i) := by
  refine ⟨?_, ?_, ?_⟩
  · intro h
    constructor
    · simp [desktopDisplayTitle, jsOrStr, h]
    · simp [mcsDisplayTitle, jsOrStr, h, String.append_empty]
  · intro h
    refine ⟨by simp [desktopDisplayTitle, jsOrStr, h], ?_, ?_⟩
    · intro ht
      simp [mcsDisplayTitle, jsOrStr, h, ht, String.append_empty]
    · intro ht
      simp [mcsDisplayTitle, jsOrStr, h, ht, String.append_empty]
  · intro hi
    simp only [mcsDisplayTitle, if_neg hi]
    simp [String.append_empty, String.append_assoc]

/-- Witness for claim C8: a document whose title element says London; a
no-title mobile document with an italic lead displaytitle, whose markup
is stripped; and one whose displaytitle markup holds no text, falling
through to the replace-all fallback. -/
theorem display_title_amended_witness :
    desktopDisplayTitle
        (El.elem "HTML" [El.elem "HEAD" [El.elem "TITLE" [El.txt "London"]],
          El.elem "BODY" []]) "London" = "London"
    ∧ mcsDisplayTitle noTitleDoc [El.elem "I" [El.txt "Foo"]] "a_b" 0 = "Foo"
    ∧ mcsDisplayTitle noTitleDoc [El.elem "I" []] "a_b" 0 = "a b" := by
  refine ⟨?_, ?_, ?_⟩
  · exact (((display_title_amended
      (El.elem "HTML" [El.elem "HEAD" [El.elem "TITLE" [El.txt "London"]],
        El.elem "BODY" []]) "London" [] 0).1 (by decide)).1).trans (by decide)
  · exact (((display_title_amended noTitleDoc "a_b"
      [El.elem "I" [El.txt "Foo"]] 0).2.1 (by decide)).2.1 (by decide)).trans
      (by decide)
  · exact (((display_title_amended noTitleDoc "a_b"
      [El.elem "I" []] 0).2.1 (by decide)).2.2 (by decide)).trans (by decide)

/-! ## Claim C5 -/

/-- Counterexample to claim C5: when the cached metadata etag is a weak
validator, the upstream GET carries If-None-Match with the weak marker
stripped, not with the cached etag itself. -/
theorem blobCache_revalidation_counterexample :
    downloadImage "https://up.wm.org/a.png"
        (some { body := "B", metaEtag := some "W/\"abc\"" })
        { status := 304, etagHeader := none, data := "" }
      = Except.ok { ifNoneMatchSent := some "\"abc\"", uploads := [],
                    contentFromCache := true, content := "B" }
    ∧ ("\"abc\"" : String) ≠ "W/\"abc\"" :=
  ⟨rfl, by decide⟩

/-- Claim C5 amended: when the cached object carries a non-empty metadata
etag, the upstream GET carries If-None-Match with that etag with any
weak marker W/ removed; a 304 returns the cached bytes with the stored
headers and uploads nothing; a non-304 (2xx) answer whose weak-stripped
etag is non-empty is uploaded to the blob cache keyed by stripHttp(url)
with that stripped etag. -/
theorem blobCache_revalidation_amended (url : String) (b : CachedBlob)
    (e : String) (resp : UpstreamResp) (he : b.metaEtag = some e) (hne : e ≠ "") :
    ((downloadImage url (some b) resp).map ImageDownloadResult.ifNoneMatchSent
        = Except.ok (some (removeEtagWeakMarker e)))
    ∧ (resp.status = 304 →
        downloadImage url (some b) resp
          = Except.ok { ifNoneMatchSent := some (removeEtagWeakMarker e),
                        uploads := [], contentFromCache := true,
                        content := b.body })
    ∧ (∀ et, resp.status ≠ 304 → resp.etagHeader = some et →
        removeEtagWeakMarker et ≠ "" →
        (downloadImage url (some b) resp).map ImageDownloadResult.uploads
          = Except.ok [(stripHttpFromUrl url, resp.data, removeEtagWeakMarker et)]) := by
  by_cases h304 : resp.status = 304
  · refine ⟨?_, fun _ => ?_, fun et hn _ _ => absurd h304 hn⟩
    · simp [downloadImage, he, hne, h304, Except.map]
    · simp [downloadImage, he, hne, h304]
  · have hb : (resp.status == 304) = false := by simp [h304]
    refine ⟨?_, fun hc => absurd hc h304, ?_⟩
    · simp [downloadImage, he, hne, hb, Except.map]
    · intro et _ het hetne
      simp [downloadImage, he, hne, hb, het, hetne, Except.map]

/-- Witness for claim C5: a strong cached etag revalidated with a 304. -/
theorem blobCache_revalidation_amended_witness :
    downloadImage "https://up.wm.org/a.png"
        (some { body := "B", metaEtag := some "\"ee\"" })
        { status := 304, etagHeader := none, data := "" }
      = Except.ok { ifNoneMatchSent := some (removeEtagWeakMarker "\"ee\""),
                    uploads := [], contentFromCache := true, content := "B" } :=
  (blobCache_revalidation_amended "https://up.wm.org/a.png"
      { body := "B", metaEtag := some "\"ee\"" } "\"ee\""
      { status := 304, etagHeader := none, data := "" } rfl (by decide)).2.1 rfl

/-! ## Claim C9 -/

/-- Counterexample to claim C9: with the prefix https://aa registered
under cache id 1, the string _1_/a starts with an underscore and refers
to a registered prefix, but the round trip yields _2_/a — the
deserialized URL is https://aa/a, whose path /a first occurs inside the
authority slashes, so the replace step cuts the wrong occurrence, the
cache lookup misses, and a fresh id is allocated. -/
theorem serializeUrl_roundtrip_counterexample :
    (serializeUrl [("1", "https://aa")]
        (deserializeUrl [("1", "https://aa")] "_1_/a")).1 = "_2_/a"
    ∧ ("_2_/a" : String) ≠ "_1_/a" :=
  ⟨rfl, by decide⟩

theorem find_by_key (cache : List (String × String)) (id pre : String)
    (hmem : (id, pre) ∈ cache) (hkeys : (cache.map Prod.fst).Nodup) :
    cache.find? (fun e => e.1 == id) = some (id, pre) := by
  induction cache with
  | nil => cases hmem
  | cons c cs ih =>
    rcases List.mem_cons.mp hmem with hc | hm
    · rw [← hc]
      rw [List.find?_cons_of_pos _ (by simp)]
    · have hk : c.1 ≠ id := by
        intro hEq
        have hin : id ∈ cs.map Prod.fst := List.mem_map.mpr ⟨(id, pre), hm, rfl⟩
        have hnI := (List.nodup_cons.mp hkeys).1
        rw [hEq] at hnI
        exact hnI hin
      rw [List.find?_cons_of_neg _ (by simp [hk])]
      exact ih hm (List.nodup_cons.mp hkeys).2

theorem find_by_val (cache : List (String × String)) (id pre : String)
    (hmem : (id, pre) ∈ cache) (hvals : (cache.map Prod.snd).Nodup) :
    cache.find? (fun e => e.2 == pre) = some (id, pre) := by
  induction cache with
  | nil => cases hmem
  | cons c cs ih =>
    rcases List.mem_cons.mp hmem with hc | hm
    · rw [← hc]
      rw [List.find?_cons_of_pos _ (by simp)]
    · have hk : c.2 ≠ pre := by
        intro hEq
        have hin : pre ∈ cs.map Prod.snd := List.mem_map.mpr ⟨(id, pre), hm, rfl⟩
        have hnI := (List.nodup_cons.mp hvals).1
        rw [hEq] at hnI
        exact hnI hin
      rw [List.find?_cons_of_neg _ (by simp [hk])]
      exact ih hm (List.nodup_cons.mp hvals).2

/-- Claim C9 amended: the round trip
serializeUrl(deserializeUrl(x)) = x holds for x = _id_path with a
registered (id, prefix) pair when the cache ids and values are
duplicate-free, the id is underscore-free (the split equation), the path
survives the split/join (which holds whenever the id has no
underscore), legacy url.parse finds exactly that path in prefix ++ path,
and the first occurrence of the path in prefix ++ path sits at the
prefix boundary — the counterexample shows the law fails without the
last condition. -/
theorem serializeUrl_roundtrip_amended
    (cache : List (String × String)) (id pre pa x : String)
    (hmem : (id, pre) ∈ cache)
    (hkeys : (cache.map Prod.fst).Nodup)
    (hvals : (cache.map Prod.snd).Nodup)
    (hx : x = "_" ++ id ++ "_" ++ pa)
    (hsplit : splitOnUnd x.data = [] :: id.data :: splitOnUnd pa.data)
    (hjoin : joinUnd (splitOnUnd pa.data) = pa.data)
    (hpath : jsUrlPath (pre ++ pa) = some pa)
    (hrepl : replaceFirstSub (pre ++ pa) pa = pre) :
    serializeUrl cache (deserializeUrl cache x) = (x, cache) := by
  have hstart : startsWithL x.data ['_'] = true := by
    rw [hx]
    simp only [String.data_append]
    show startsWithL (['_'] ++ id.data ++ ['_'] ++ pa.data) ['_'] = true
    simp [startsWithL]
  have hdeser : deserializeUrl cache x = pre ++ pa := by
    unfold deserializeUrl
    rw [if_neg (by simp [hstart])]
    rw [hsplit]
    have hid : (⟨id.data⟩ : String) = id := rfl
    simp only [hid]
    rw [find_by_key cache id pre hmem hkeys]
    simp only [Option.map_some', Option.getD_some]
    rw [hjoin]
  rw [hdeser]
  unfold serializeUrl
  rw [hpath]
  simp only [Option.getD_some]
  rw [hrepl]
  rw [find_by_val cache id pre hmem hvals]
  rw [hx]

/-- Witness for claim C9 at a well-formed serialized URL with an
underscore inside the path. -/
theorem serializeUrl_roundtrip_amended_witness :
    serializeUrl [("1", "https://h")]
        (deserializeUrl [("1", "https://h")] "_1_/w/x_y")
      = ("_1_/w/x_y", [("1", "https://h")]) :=
  serializeUrl_roundtrip_amended [("1", "https://h")] "1" "https://h" "/w/x_y"
    "_1_/w/x_y" (by decide) (by decide) (by decide) (by decide) (by decide)
    (by decide) (by decide) (by decide)

end MwOffliner
